import Mathlib

/-!
Verification of the index-aggregation core of `asu/main.py`.

The handlers in `main.py` call external collaborators
(`parse_packages_file`, `parse_feeds_conf`, `parse_kernel_version`,
`is_post_kmod_split_build`, the redis client); those are modelled as
function parameters.  Python `dict[str, ...]` values are modelled as
association lists with Python `dict` semantics: unique-key maps built by
insertion, `update` overwriting existing keys in place and appending new
ones, lookup returning the value of the (unique) binding.  Lookup is
defined "last binding wins" so that it agrees with Python even on lists
that carry a duplicated key.
-/

/-- A Python `dict[str, str]` as an association list. -/
abbrev PackageManifest := List (String × String)

/-- Errors a handler can surface: `UpstreamFetchError` raised by the
fetch/parse collaborators, and a Python `KeyError` raised by an unguarded
subscription such as `base_packages["packages"]`. -/
inductive Err where
  | upstreamFetchError : Err
  | keyError : String → Err
deriving DecidableEq

/-- The document returned by `parse_packages_file`: an optional
`"packages"` field (a package-name → metadata dict) plus arbitrary
pass-through fields (modelled opaquely as string pairs). -/
structure IndexDocument where
  packages : Option PackageManifest
  extra : List (String × String)
deriving DecidableEq

deriving instance DecidableEq for Except

/-- Python `d.get(k)` / `d[k]`-style lookup on an association list; the
last binding for a key wins, matching a `dict` built by insertions. -/
def dictGet : List (String × String) → String → Option String
  | [], _ => none
  | p :: rest, k =>
      match dictGet rest k with
      | some v => some v
      | none => if p.1 = k then some p.2 else none

/-- Whether a key is bound in the dict. -/
def dictHasKey : List (String × String) → String → Bool
  | [], _ => false
  | p :: rest, k => p.1 == k || dictHasKey rest k

/-- Python `d[k] = v`: overwrite the binding in place if the key exists,
otherwise append a new binding at the end. -/
def dictInsert (m : List (String × String)) (k : String) (v : String) :
    List (String × String) :=
  if dictHasKey m k then m.map (fun p => if p.1 = k then (k, v) else p)
  else m ++ [(k, v)]

/-- Python `m1.update(m2)`: fold the bindings of `m2` into `m1`, the
second dict winning on every key collision. -/
def dictUpdate (m₁ m₂ : List (String × String)) : List (String × String) :=
  m₂.foldl (fun acc p => dictInsert acc p.1 p.2) m₁

/-- Handler for `GET /json/v1/{path}/index.json` (`json_v1_target_index`
in `main.py`): fetch the base manifest; when `is_post_kmod_split_build`
holds and `parse_kernel_version` yields a truthy (non-empty) directory
name, fetch the kmod manifest and run
`base_packages["packages"].update(kmod_packages.get("packages", {}))`. -/
def json_v1_target_index
    (parse_packages_file : String → Except Err IndexDocument)
    (is_post_kmod_split_build : String → Bool)
    (parse_kernel_version : String → String)
    (upstream_url : String) (path : String) : Except Err IndexDocument := do
  let base_path : String := upstream_url ++ "/" ++ path
  let base_packages ← parse_packages_file (base_path ++ "/packages")
  if is_post_kmod_split_build path then
    let kmods_directory : String := parse_kernel_version (base_path ++ "/profiles.json")
    if kmods_directory ≠ "" then do
      let kmod_packages ← parse_packages_file
        (base_path ++ "/kmods/" ++ kmods_directory)
      match base_packages.packages with
      | none => Except.error (Err.keyError "packages")
      | some base_pkgs =>
          Except.ok { base_packages with
            packages := some (dictUpdate base_pkgs (kmod_packages.packages.getD [])) }
    else
      Except.ok base_packages
  else
    Except.ok base_packages

/-! ### Dictionary lemmas -/

theorem dictGet_eq_none_of_not_hasKey (m : List (String × String)) (k : String)
    (h : dictHasKey m k = false) : dictGet m k = none := by
  induction m with
  | nil => rfl
  | cons p rest ih =>
      simp only [dictHasKey, Bool.or_eq_false_iff, beq_eq_false_iff_ne, ne_eq] at h
      simp [dictGet, ih h.2, h.1]

theorem dictHasKey_map_overwrite (m : List (String × String)) (k : String) (v : String) :
    dictHasKey (m.map (fun p => if p.1 = k then (k, v) else p)) k = dictHasKey m k := by
  induction m with
  | nil => rfl
  | cons p rest ih =>
      by_cases hp : p.1 = k
      · simp [dictHasKey, hp, ih]
      · simp [dictHasKey, hp, ih]

theorem dictGet_map_overwrite_self (m : List (String × String)) (k : String) (v : String)
    (h : dictHasKey m k = true) :
    dictGet (m.map (fun p => if p.1 = k then (k, v) else p)) k = some v := by
  induction m with
  | nil => simp [dictHasKey] at h
  | cons p rest ih =>
      simp only [dictHasKey, Bool.or_eq_true, beq_iff_eq] at h
      by_cases hr : dictHasKey rest k = true
      · simp only [List.map_cons, dictGet, ih hr]
      · have hnone : dictGet (rest.map (fun p => if p.1 = k then (k, v) else p)) k = none := by
          apply dictGet_eq_none_of_not_hasKey
          rw [dictHasKey_map_overwrite]
          exact Bool.not_eq_true _ ▸ hr
        have hp : p.1 = k := by
          rcases h with h | h
          · exact h
          · exact absurd h hr
        simp [List.map_cons, dictGet, hnone, hp]

theorem dictGet_map_overwrite_ne (m : List (String × String)) (k v k' : String)
    (h : k' ≠ k) :
    dictGet (m.map (fun p => if p.1 = k then (k, v) else p)) k' = dictGet m k' := by
  induction m with
  | nil => rfl
  | cons p rest ih =>
      by_cases hp : p.1 = k
      · simp [dictGet, ih, hp, Ne.symm h, hp ▸ (Ne.symm h : k ≠ k')]
      · simp [dictGet, ih, hp]

theorem dictGet_append (m₁ m₂ : List (String × String)) (k : String) :
    dictGet (m₁ ++ m₂) k =
      match dictGet m₂ k with
      | some v => some v
      | none => dictGet m₁ k := by
  induction m₁ with
  | nil => cases h : dictGet m₂ k <;> simp [dictGet, h]
  | cons p rest ih =>
      show dictGet (p :: (rest ++ m₂)) k = _
      rw [dictGet, ih]
      cases h : dictGet m₂ k <;> cases h2 : dictGet rest k <;> simp [dictGet, h, h2]

theorem dictGet_dictInsert_self (m : List (String × String)) (k v : String) :
    dictGet (dictInsert m k v) k = some v := by
  unfold dictInsert
  by_cases h : dictHasKey m k = true
  · simp only [h, if_true]
    exact dictGet_map_overwrite_self m k v h
  · have h' : dictHasKey m k = false := by
      cases hk : dictHasKey m k
      · rfl
      · exact absurd hk h
    simp only [h', Bool.false_eq_true, if_false, dictGet_append]
    simp [dictGet, dictGet_eq_none_of_not_hasKey m k h']

theorem dictGet_dictInsert_ne (m : List (String × String)) (k v k' : String)
    (h : k' ≠ k) : dictGet (dictInsert m k v) k' = dictGet m k' := by
  unfold dictInsert
  by_cases hk : dictHasKey m k = true
  · simp only [hk, if_true]
    exact dictGet_map_overwrite_ne m k v k' h
  · have h' : dictHasKey m k = false := by
      cases hh : dictHasKey m k
      · rfl
      · exact absurd hh hk
    simp only [h', Bool.false_eq_true, if_false, dictGet_append]
    simp [dictGet, Ne.symm h]

theorem dictUpdate_cons (m₁ : List (String × String)) (a b : String)
    (rest : List (String × String)) :
    dictUpdate m₁ ((a, b) :: rest) = dictUpdate (dictInsert m₁ a b) rest := rfl

/-- The fundamental property of `dict.update`: a lookup in `m₁.update(m₂)`
returns `m₂`'s value when `m₂` binds the key, `m₁`'s value otherwise. -/
theorem dictGet_dictUpdate (m₂ m₁ : List (String × String)) (k : String) :
    dictGet (dictUpdate m₁ m₂) k =
      match dictGet m₂ k with
      | some v => some v
      | none => dictGet m₁ k := by
  induction m₂ generalizing m₁ with
  | nil => simp [dictUpdate, dictGet]
  | cons p rest ih =>
      obtain ⟨a, b⟩ := p
      rw [dictUpdate_cons, ih]
      cases hr : dictGet rest k with
      | some v => simp [dictGet, hr]
      | none =>
          by_cases hak : a = k
          · subst hak
            simp [dictGet, hr, dictGet_dictInsert_self]
          · simp [dictGet, hr, hak, dictGet_dictInsert_ne m₁ a b k (Ne.symm hak)]

/-! ### Target-index theorems -/

/-- C3: with no kmod split, or with a split whose kernel-version
resolution is empty, the handler returns the base manifest untouched. -/
theorem target_index_no_split_passthrough
    (ppf : String → Except Err IndexDocument)
    (split : String → Bool) (pkv : String → String)
    (u p : String) (doc : IndexDocument)
    (hbase : ppf (u ++ "/" ++ p ++ "/packages") = Except.ok doc)
    (h : split p = false ∨ pkv (u ++ "/" ++ p ++ "/profiles.json") = "") :
    json_v1_target_index ppf split pkv u p = Except.ok doc := by
  rcases h with h | h <;>
    simp [json_v1_target_index, hbase, h, Bind.bind, Except.bind]

/-- Helper: the exact value produced on the kmod-merge path. -/
theorem target_index_merge_eq
    (ppf : String → Except Err IndexDocument)
    (split : String → Bool) (pkv : String → String)
    (u p : String) (doc kdoc : IndexDocument) (base_pkgs : PackageManifest)
    (hsplit : split p = true)
    (hkd : pkv (u ++ "/" ++ p ++ "/profiles.json") ≠ "")
    (hbase : ppf (u ++ "/" ++ p ++ "/packages") = Except.ok doc)
    (hbp : doc.packages = some base_pkgs)
    (hkmod : ppf (u ++ "/" ++ p ++ "/kmods/"
      ++ pkv (u ++ "/" ++ p ++ "/profiles.json")) = Except.ok kdoc) :
    json_v1_target_index ppf split pkv u p =
      Except.ok (IndexDocument.mk
        (some (dictUpdate base_pkgs (kdoc.packages.getD []))) doc.extra) := by
  obtain ⟨pk, ex⟩ := doc
  simp only [IndexDocument.packages] at hbp
  subst hbp
  simp [json_v1_target_index, hsplit, hkd, hbase, hkmod, Bind.bind, Except.bind]

/-- C1: on the kmod-merge path the handler returns the base document with
its other fields untouched and `packages` replaced by the base packages
updated by the kmod packages; the kmod value wins on every collision. -/
theorem target_index_kmod_merge
    (ppf : String → Except Err IndexDocument)
    (split : String → Bool) (pkv : String → String)
    (u p : String) (doc kdoc : IndexDocument) (base_pkgs : PackageManifest)
    (hsplit : split p = true)
    (hkd : pkv (u ++ "/" ++ p ++ "/profiles.json") ≠ "")
    (hbase : ppf (u ++ "/" ++ p ++ "/packages") = Except.ok doc)
    (hbp : doc.packages = some base_pkgs)
    (hkmod : ppf (u ++ "/" ++ p ++ "/kmods/"
      ++ pkv (u ++ "/" ++ p ++ "/profiles.json")) = Except.ok kdoc) :
    json_v1_target_index ppf split pkv u p =
      Except.ok (IndexDocument.mk
        (some (dictUpdate base_pkgs (kdoc.packages.getD []))) doc.extra) ∧
    ∀ name, dictGet (dictUpdate base_pkgs (kdoc.packages.getD [])) name =
      match dictGet (kdoc.packages.getD []) name with
      | some v => some v
      | none => dictGet base_pkgs name := by
  constructor
  · exact target_index_merge_eq ppf split pkv u p doc kdoc base_pkgs
      hsplit hkd hbase hbp hkmod
  · intro name
    exact dictGet_dictUpdate _ base_pkgs name

/-- C6: merging an empty kmod manifest (no `packages` field, or an empty
one) leaves the base document unchanged; `dictUpdate` has the empty
manifest as a right identity. -/
theorem target_index_empty_kmod_identity
    (ppf : String → Except Err IndexDocument)
    (split : String → Bool) (pkv : String → String)
    (u p : String) (doc kdoc : IndexDocument) (base_pkgs : PackageManifest)
    (hsplit : split p = true)
    (hkd : pkv (u ++ "/" ++ p ++ "/profiles.json") ≠ "")
    (hbase : ppf (u ++ "/" ++ p ++ "/packages") = Except.ok doc)
    (hbp : doc.packages = some base_pkgs)
    (hkmod : ppf (u ++ "/" ++ p ++ "/kmods/"
      ++ pkv (u ++ "/" ++ p ++ "/profiles.json")) = Except.ok kdoc)
    (hempty : kdoc.packages = none ∨ kdoc.packages = some []) :
    json_v1_target_index ppf split pkv u p = Except.ok doc ∧
    (∀ m : PackageManifest, dictUpdate m [] = m) := by
  have hkd0 : kdoc.packages.getD [] = [] := by
    rcases hempty with h | h <;> simp [h]
  constructor
  · have h1 := target_index_merge_eq ppf split pkv u p doc kdoc base_pkgs
      hsplit hkd hbase hbp hkmod
    rw [h1, hkd0]
    obtain ⟨pk, ex⟩ := doc
    simp only [IndexDocument.packages] at hbp
    subst hbp
    rfl
  · intro m
    rfl

/-- C9: on the kmod-merge path the base document's `packages` field is
read without a guard — a base manifest without it makes the handler fail
with a `KeyError`, while a kmod manifest without it is tolerated. -/
theorem target_index_packages_key_guard
    (ppf : String → Except Err IndexDocument)
    (split : String → Bool) (pkv : String → String)
    (u p : String) (doc kdoc : IndexDocument)
    (hsplit : split p = true)
    (hkd : pkv (u ++ "/" ++ p ++ "/profiles.json") ≠ "")
    (hbase : ppf (u ++ "/" ++ p ++ "/packages") = Except.ok doc)
    (hkmod : ppf (u ++ "/" ++ p ++ "/kmods/"
      ++ pkv (u ++ "/" ++ p ++ "/profiles.json")) = Except.ok kdoc) :
    (doc.packages = none →
      json_v1_target_index ppf split pkv u p =
        Except.error (Err.keyError "packages")) ∧
    (∀ base_pkgs, doc.packages = some base_pkgs →
      json_v1_target_index ppf split pkv u p =
        Except.ok (IndexDocument.mk
          (some (dictUpdate base_pkgs (kdoc.packages.getD []))) doc.extra)) := by
  constructor
  · intro hnone
    simp [json_v1_target_index, hsplit, hkd, hbase, hkmod, hnone,
      Bind.bind, Except.bind]
  · intro base_pkgs hbp
    exact target_index_merge_eq ppf split pkv u p doc kdoc base_pkgs
      hsplit hkd hbase hbp hkmod

/-- Witness for C1: the spec's concrete scenario, base manifest
`packages = {a: 1.0}`, `arch = x86`, kmod manifest `packages = {b: 2.0}`. -/
theorem target_index_kmod_merge_witness :
    json_v1_target_index
      (fun url =>
        if url = "up/t/packages"
          then Except.ok (IndexDocument.mk (some [("a", "1.0")]) [("arch", "x86")])
        else if url = "up/t/kmods/5.15"
          then Except.ok (IndexDocument.mk (some [("b", "2.0")]) [])
        else Except.error Err.upstreamFetchError)
      (fun _ => true) (fun _ => "5.15") "up" "t" =
      Except.ok (IndexDocument.mk
        (some [("a", "1.0"), ("b", "2.0")]) [("arch", "x86")]) :=
  ((target_index_kmod_merge _ _ _ "up" "t"
      (IndexDocument.mk (some [("a", "1.0")]) [("arch", "x86")])
      (IndexDocument.mk (some [("b", "2.0")]) [])
      [("a", "1.0")]
      rfl (by decide) (by decide) rfl (by decide)).1).trans (by decide)

/-- Witness for C3: split detector answers false; the base document comes
back untouched. -/
theorem target_index_no_split_passthrough_witness :
    json_v1_target_index
      (fun _ => Except.ok (IndexDocument.mk (some [("x", "1")]) [("k", "v")]))
      (fun _ => false) (fun _ => "z") "up" "t" =
      Except.ok (IndexDocument.mk (some [("x", "1")]) [("k", "v")]) :=
  target_index_no_split_passthrough _ _ _ "up" "t"
    (IndexDocument.mk (some [("x", "1")]) [("k", "v")]) rfl (Or.inl rfl)

/-- Witness for C6: a kmod manifest with no `packages` field leaves the
base document unchanged. -/
theorem target_index_empty_kmod_identity_witness :
    json_v1_target_index
      (fun url =>
        if url = "up/t/packages"
          then Except.ok (IndexDocument.mk (some [("a", "1.0")]) [("arch", "x86")])
        else if url = "up/t/kmods/5.15"
          then Except.ok (IndexDocument.mk none [])
        else Except.error Err.upstreamFetchError)
      (fun _ => true) (fun _ => "5.15") "up" "t" =
      Except.ok (IndexDocument.mk (some [("a", "1.0")]) [("arch", "x86")]) :=
  (target_index_empty_kmod_identity _ _ _ "up" "t"
      (IndexDocument.mk (some [("a", "1.0")]) [("arch", "x86")])
      (IndexDocument.mk none [])
      [("a", "1.0")]
      rfl (by decide) (by decide) rfl (by decide) (Or.inl rfl)).1

/-- Witness for C9: a base manifest with no `packages` key makes the
kmod-merge path fail with a `KeyError`. -/
theorem target_index_packages_key_guard_witness :
    json_v1_target_index
      (fun url =>
        if url = "up/t/packages"
          then Except.ok (IndexDocument.mk none [("arch", "x86")])
        else if url = "up/t/kmods/5.15"
          then Except.ok (IndexDocument.mk (some [("b", "2.0")]) [])
        else Except.error Err.upstreamFetchError)
      (fun _ => true) (fun _ => "5.15") "up" "t" =
      Except.error (Err.keyError "packages") :=
  (target_index_packages_key_guard _ _ _ "up" "t"
      (IndexDocument.mk none [("arch", "x86")])
      (IndexDocument.mk (some [("b", "2.0")]) [])
      rfl (by decide) (by decide) (by decide)).1 rfl

/-! ### Arch-index handler -/

/-- The `for feed in feeds:` loop of `json_v1_arch_index`:
`packages.update(parse_packages_file(feed_url + "/" + feed).get("packages", {}))`
applied feed by feed, aborting on the first failed fetch. -/
def mergeFeeds
    (parse_packages_file : String → Except Err IndexDocument)
    (feed_url : String) :
    List String → PackageManifest → Except Err PackageManifest
  | [], packages => Except.ok packages
  | feed :: rest, packages =>
      match parse_packages_file (feed_url ++ "/" ++ feed) with
      | Except.error e => Except.error e
      | Except.ok doc =>
          mergeFeeds parse_packages_file feed_url rest
            (dictUpdate packages (doc.packages.getD []))

/-- Handler for `GET /json/v1/{path}/{arch}-index.json`
(`json_v1_arch_index` in `main.py`): resolve the ordered feed list, then
merge each feed's packages into an accumulator starting from `{}`. -/
def json_v1_arch_index
    (parse_packages_file : String → Except Err IndexDocument)
    (parse_feeds_conf : String → Except Err (List String))
    (upstream_url : String) (path : String) (arch : String) :
    Except Err PackageManifest := do
  let feed_url : String := upstream_url ++ "/" ++ path ++ "/" ++ arch
  let feeds ← parse_feeds_conf feed_url
  mergeFeeds parse_packages_file feed_url feeds []

/-- The value assigned to a package name by the last manifest in a
sequence that defines it (`none` when no manifest defines it). -/
def lastDefinedValue : List PackageManifest → String → Option String
  | [], _ => none
  | m :: rest, k =>
      match lastDefinedValue rest k with
      | some v => some v
      | none => dictGet m k

theorem mergeFeeds_ok
    (ppf : String → Except Err IndexDocument) (fu : String)
    (docOf : String → IndexDocument) :
    ∀ (feeds : List String) (acc : PackageManifest),
      (∀ f ∈ feeds, ppf (fu ++ "/" ++ f) = Except.ok (docOf f)) →
      mergeFeeds ppf fu feeds acc =
        Except.ok (feeds.foldl
          (fun a f => dictUpdate a ((docOf f).packages.getD [])) acc)
  | [], acc, _ => rfl
  | feed :: rest, acc, h => by
      have hf : ppf (fu ++ "/" ++ feed) = Except.ok (docOf feed) :=
        h feed (List.mem_cons_self feed rest)
      rw [mergeFeeds, hf]
      exact mergeFeeds_ok ppf fu docOf rest _
        (fun f hfm => h f (List.mem_cons_of_mem feed hfm))

theorem dictGet_foldl_dictUpdate
    (ms : List PackageManifest) (acc : PackageManifest) (k : String) :
    dictGet (ms.foldl (fun a m => dictUpdate a m) acc) k =
      match lastDefinedValue ms k with
      | some v => some v
      | none => dictGet acc k := by
  induction ms generalizing acc with
  | nil => rfl
  | cons m rest ih =>
      rw [List.foldl_cons, ih, lastDefinedValue]
      cases hr : lastDefinedValue rest k with
      | some v => rfl
      | none => exact dictGet_dictUpdate m acc k

/-- C2: with every feed fetch succeeding, the arch index is the ordered
left fold of the feeds' package dicts, and every package name resolves to
the value given by the last feed that defines it; a feed without a
`packages` field contributes nothing (its dict is `{}`). -/
theorem arch_index_last_feed_wins
    (ppf : String → Except Err IndexDocument)
    (pfc : String → Except Err (List String))
    (u p a : String) (feeds : List String) (docOf : String → IndexDocument)
    (hfeeds : pfc (u ++ "/" ++ p ++ "/" ++ a) = Except.ok feeds)
    (hall : ∀ f ∈ feeds,
      ppf (u ++ "/" ++ p ++ "/" ++ a ++ "/" ++ f) = Except.ok (docOf f)) :
    json_v1_arch_index ppf pfc u p a =
      Except.ok (feeds.foldl
        (fun acc f => dictUpdate acc ((docOf f).packages.getD [])) []) ∧
    ∀ name,
      dictGet (feeds.foldl
        (fun acc f => dictUpdate acc ((docOf f).packages.getD [])) []) name =
      lastDefinedValue (feeds.map (fun f => (docOf f).packages.getD [])) name := by
  constructor
  · simp only [json_v1_arch_index, hfeeds, Bind.bind, Except.bind]
    exact mergeFeeds_ok ppf _ docOf feeds [] hall
  · intro name
    have h := dictGet_foldl_dictUpdate
      (feeds.map (fun f => (docOf f).packages.getD [])) [] name
    rw [List.foldl_map] at h
    rw [h]
    cases lastDefinedValue (feeds.map (fun f => (docOf f).packages.getD [])) name <;> rfl

/-- Witness for C2: the spec's concrete scenario, feeds
`[base, packages, luci]` defining `foo` as `1`, `2`, `3`. -/
theorem arch_index_last_feed_wins_witness :
    json_v1_arch_index
      (fun url =>
        if url = "up/t/x86/base" then Except.ok (IndexDocument.mk (some [("foo", "1")]) [])
        else if url = "up/t/x86/packages" then Except.ok (IndexDocument.mk (some [("foo", "2")]) [])
        else if url = "up/t/x86/luci" then Except.ok (IndexDocument.mk (some [("foo", "3")]) [])
        else Except.error Err.upstreamFetchError)
      (fun _ => Except.ok ["base", "packages", "luci"])
      "up" "t" "x86" = Except.ok [("foo", "3")] :=
  ((arch_index_last_feed_wins _ _ "up" "t" "x86" ["base", "packages", "luci"]
      (fun f =>
        if f = "base" then IndexDocument.mk (some [("foo", "1")]) []
        else if f = "packages" then IndexDocument.mk (some [("foo", "2")]) []
        else IndexDocument.mk (some [("foo", "3")]) [])
      rfl (by decide)).1).trans (by decide)

theorem mergeFeeds_error
    (ppf : String → Except Err IndexDocument) (fu : String) :
    ∀ (feeds : List String) (acc : PackageManifest),
      (∃ f ∈ feeds, ppf (fu ++ "/" ++ f) = Except.error Err.upstreamFetchError) →
      (∀ g ∈ feeds, ∀ e, ppf (fu ++ "/" ++ g) = Except.error e →
        e = Err.upstreamFetchError) →
      mergeFeeds ppf fu feeds acc = Except.error Err.upstreamFetchError
  | [], _, hex, _ => by simp at hex
  | feed :: rest, acc, hex, herr => by
      cases h : ppf (fu ++ "/" ++ feed) with
      | error e =>
          have he := herr feed (List.mem_cons_self feed rest) e h
          rw [mergeFeeds, h, he]
      | ok doc =>
          rw [mergeFeeds, h]
          obtain ⟨f, hf, hfe⟩ := hex
          rcases List.mem_cons.mp hf with hfeq | hfr
          · rw [hfeq] at hfe
            rw [hfe] at h
            exact absurd h (by simp)
          · exact mergeFeeds_error ppf fu rest _ ⟨f, hfr, hfe⟩
              (fun g hg => herr g (List.mem_cons_of_mem feed hg))

/-- C4: if fetching any one feed's manifest fails (fetch failures being
`UpstreamFetchError`), the whole arch-index call fails with
`UpstreamFetchError`; no partial accumulator is ever returned. -/
theorem arch_index_all_or_nothing
    (ppf : String → Except Err IndexDocument)
    (pfc : String → Except Err (List String))
    (u p a : String) (feeds : List String)
    (hfeeds : pfc (u ++ "/" ++ p ++ "/" ++ a) = Except.ok feeds)
    (hfail : ∃ f ∈ feeds,
      ppf (u ++ "/" ++ p ++ "/" ++ a ++ "/" ++ f) =
        Except.error Err.upstreamFetchError)
    (herr : ∀ g ∈ feeds, ∀ e,
      ppf (u ++ "/" ++ p ++ "/" ++ a ++ "/" ++ g) = Except.error e →
      e = Err.upstreamFetchError) :
    json_v1_arch_index ppf pfc u p a =
      Except.error Err.upstreamFetchError := by
  simp only [json_v1_arch_index, hfeeds, Bind.bind, Except.bind]
  exact mergeFeeds_error ppf _ feeds [] hfail herr

/-- Witness for C4: the middle feed's fetch fails, so the whole call
fails even though the surrounding feeds would succeed. -/
theorem arch_index_all_or_nothing_witness :
    json_v1_arch_index
      (fun url =>
        if url = "up/t/x86/bad" then Except.error Err.upstreamFetchError
        else Except.ok (IndexDocument.mk (some [("foo", "1")]) []))
      (fun _ => Except.ok ["base", "bad", "luci"])
      "up" "t" "x86" = Except.error Err.upstreamFetchError := by
  apply arch_index_all_or_nothing _ _ "up" "t" "x86" ["base", "bad", "luci"] rfl
  · exact ⟨"bad", by decide, by decide⟩
  · intro g hg e he
    by_cases hu : ("up" ++ "/" ++ "t" ++ "/" ++ "x86" ++ "/" ++ g) = "up/t/x86/bad"
    · simp only [hu, if_pos rfl] at he
      exact (Except.error.injEq _ _ ▸ he).symm
    · simp only [if_neg hu] at he
      exact absurd he (by simp)

/-- C10: an empty feed list yields the empty manifest, and the result
does not depend on the package-manifest fetcher at all (no fetch can
influence it). -/
theorem arch_index_empty_feeds
    (ppf : String → Except Err IndexDocument)
    (pfc : String → Except Err (List String))
    (u p a : String)
    (hfeeds : pfc (u ++ "/" ++ p ++ "/" ++ a) = Except.ok []) :
    json_v1_arch_index ppf pfc u p a = Except.ok [] ∧
    ∀ ppf₂, json_v1_arch_index ppf pfc u p a = json_v1_arch_index ppf₂ pfc u p a := by
  have h : ∀ g : String → Except Err IndexDocument,
      json_v1_arch_index g pfc u p a = Except.ok [] := by
    intro g
    simp only [json_v1_arch_index, hfeeds, Bind.bind, Except.bind]
    rfl
  exact ⟨h ppf, fun ppf₂ => (h ppf).trans (h ppf₂).symm⟩

/-- Witness for C10: with no feeds, even a fetcher that always fails is
never consulted and the result is the empty manifest. -/
theorem arch_index_empty_feeds_witness :
    json_v1_arch_index (fun _ => Except.error Err.upstreamFetchError)
      (fun _ => Except.ok []) "up" "t" "x86" = Except.ok [] :=
  (arch_index_empty_feeds _ _ "up" "t" "x86" rfl).1

/-! ### Response cache -/

/-- A cache entry: the stored value and the time it was stored. -/
structure CacheEntry (V : Type) where
  value : V
  storedAt : Nat
deriving DecidableEq

/-- The TTL used by every cached endpoint in `main.py`
(`@cache(expire=600)` on the directory view, the target index and the
arch index). -/
def cacheTTL : Nat := 600

/-- Modelled from the spec: the Response Cache of §4.3 (`GetOrCompute`).
The backing implementation (`fastapi_cache` and its `InMemoryBackend`)
is an external dependency, not part of this repository's source; this
definition follows the spec's words: on a hit within `ttl` seconds of
the entry's creation the stored value is returned without invoking
`compute`; on a miss or expiry `compute` runs and its result is stored
with a fresh timestamp.  The returned `Bool` records whether `compute`
was invoked. -/
def getOrCompute {V : Type} (entry : Option (CacheEntry V)) (now ttl : Nat)
    (compute : Unit → V) : V × CacheEntry V × Bool :=
  match entry with
  | some e =>
      if now < e.storedAt + ttl then (e.value, e, false)
      else
        let v := compute ()
        (v, CacheEntry.mk v now, true)
  | none =>
      let v := compute ()
      (v, CacheEntry.mk v now, true)

/-- C5: with the 600-second TTL of the cached endpoints, a value stored
at time `T` is returned unchanged without invoking the computation at
any lookup at `T + ttl − ε`, and a fresh computation occurs at any
lookup at `T + ttl + ε`. -/
theorem cache_ttl_boundary {V : Type} (v : V) (T ε : Nat)
    (compute : Unit → V) (hpos : 0 < ε) (hle : ε ≤ cacheTTL) :
    cacheTTL = 600 ∧
    getOrCompute (some (CacheEntry.mk v T)) (T + cacheTTL - ε) cacheTTL compute =
      (v, CacheEntry.mk v T, false) ∧
    getOrCompute (some (CacheEntry.mk v T)) (T + cacheTTL + ε) cacheTTL compute =
      (compute (), CacheEntry.mk (compute ()) (T + cacheTTL + ε), true) := by
  refine ⟨rfl, ?_, ?_⟩
  · have hlt : T + cacheTTL - ε < T + cacheTTL := by omega
    simp [getOrCompute, hlt]
  · have hge : ¬ (T + cacheTTL + ε < T + cacheTTL) := by omega
    simp [getOrCompute, hge]

/-- Witness for C5: a value stored at time 1000 is still served at time
1599 and recomputed at time 1601. -/
theorem cache_ttl_boundary_witness :
    cacheTTL = 600 ∧
    getOrCompute (some (CacheEntry.mk "cached" 1000)) 1599 cacheTTL
        (fun _ => "fresh") = ("cached", CacheEntry.mk "cached" 1000, false) ∧
    getOrCompute (some (CacheEntry.mk "cached" 1000)) 1601 cacheTTL
        (fun _ => "fresh") = ("fresh", CacheEntry.mk "fresh" 1601, true) :=
  cache_ttl_boundary "cached" 1000 1 (fun _ => "fresh") (by decide) (by decide)

/-! ### Directory builder -/

/-- Python `sorted` on strings: lexicographic merge sort. -/
def pySorted (l : List String) : List String := l.mergeSort

theorem pySorted_sorted (l : List String) : List.Sorted (· ≤ ·) (pySorted l) :=
  List.sorted_mergeSort' l

theorem pySorted_perm (l : List String) : (pySorted l).Perm l :=
  List.mergeSort_perm l _

theorem pySorted_eq_of_perm (l₁ l₂ : List String) (h : l₁.Perm l₂) :
    pySorted l₁ = pySorted l₂ :=
  List.eq_of_perm_of_sorted
    ((pySorted_perm l₁).trans (h.trans (pySorted_perm l₂).symm))
    (pySorted_sorted l₁) (pySorted_sorted l₂)

/-- The branch/version mapping assembled by the `index` route of
`main.py`: the sorted branch set from the shared store, each branch
paired with its sorted version set
(`sorted(redis_client.smembers("versions:" + b))`). -/
def index_branches (smembers : String → List String) :
    List (String × List String) :=
  (pySorted (smembers "branches")).map
    (fun b => (b, pySorted (smembers ("versions:" ++ b))))

/-- C7: the directory view lists the branches sorted lexicographically
(a permutation of the store's branch set), each with its versions sorted
lexicographically (a permutation of the store's version set for that
branch), and the result is identical for any two stores whose sets agree
up to iteration order. -/
theorem directory_sorted (sm : String → List String) :
    List.Sorted (· ≤ ·) ((index_branches sm).map Prod.fst) ∧
    ((index_branches sm).map Prod.fst).Perm (sm "branches") ∧
    (∀ pr ∈ index_branches sm,
      List.Sorted (· ≤ ·) pr.2 ∧ pr.2.Perm (sm ("versions:" ++ pr.1))) ∧
    ∀ sm₂ : String → List String,
      (∀ s, (sm s).Perm (sm₂ s)) → index_branches sm = index_branches sm₂ := by
  have hfst : (index_branches sm).map Prod.fst = pySorted (sm "branches") := by
    simp only [index_branches, List.map_map]
    exact List.map_id _ ▸ List.map_congr_left (fun b _ => rfl)
  refine ⟨?_, ?_, ?_, ?_⟩
  · rw [hfst]
    exact pySorted_sorted _
  · rw [hfst]
    exact pySorted_perm _
  · intro pr hpr
    obtain ⟨b, _, rfl⟩ := List.mem_map.mp hpr
    exact ⟨pySorted_sorted _, pySorted_perm _⟩
  · intro sm₂ hperm
    unfold index_branches
    rw [pySorted_eq_of_perm _ _ (hperm "branches")]
    exact List.map_congr_left
      (fun b _ => by rw [pySorted_eq_of_perm _ _ (hperm ("versions:" ++ b))])

/-- Witness for C7: a store yielding branches in reverse order produces a
sorted listing, identical to the one produced by a permuted store. -/
theorem directory_sorted_witness :
    List.Sorted (· ≤ ·)
      ((index_branches
        (fun s => if s = "branches" then ["b", "a"] else ["2", "1"])).map
          Prod.fst) ∧
    index_branches (fun s => if s = "branches" then ["b", "a"] else ["2", "1"]) =
      index_branches (fun s => if s = "branches" then ["a", "b"] else ["2", "1"]) :=
  ⟨(directory_sorted _).1,
    (directory_sorted _).2.2.2 _
      (by
        intro s
        by_cases h : s = "branches"
        · simp only [h, if_pos rfl]
          decide
        · simp only [if_neg h]
          exact List.Perm.refl _)⟩

/-! ### Double-slash redirect -/

/-- Whether a path (as a character list) contains a doubled `/`. -/
def containsDoubleSlash : List Char → Bool
  | [] => false
  | [_] => false
  | a :: b :: rest => (a = '/' && b = '/') || containsDoubleSlash (b :: rest)

/-- The route pattern `@app.get("//{path:path}")`: it matches exactly the
request paths that begin with `//`, capturing everything after them as
the `path` parameter. -/
def doubleSlashRouteMatch : List Char → Option (List Char)
  | a :: b :: rest => if a = '/' ∧ b = '/' then some rest else none
  | _ => none

/-- The body of `api_double_slash`: a 301 redirect to `"/" + path`. -/
def api_double_slash (path : List Char) : List Char × Nat :=
  ('/' :: path, 301)

/-- C8 counterexample: the request path `//a//b` contains doubled
separators and is matched by the double-slash route, but the redirect
target `/a//b` still contains a doubled separator — it is not the
single-separator form `/a/b`; and the request path `/x//y`, which also
contains a doubled separator, is not matched by the route at all, so no
redirect is issued for it. -/
theorem double_slash_claim_refuted :
    doubleSlashRouteMatch "//a//b".toList = some "a//b".toList ∧
    api_double_slash "a//b".toList = ("/a//b".toList, 301) ∧
    containsDoubleSlash "/a//b".toList = true ∧
    "/a//b".toList ≠ "/a/b".toList ∧
    containsDoubleSlash "/x//y".toList = true ∧
    doubleSlashRouteMatch "/x//y".toList = none := by
  decide

/-- C8 amended: a request path beginning with a doubled separator is
permanently redirected (301) to the same path with the leading doubled
separator reduced to a single one — the redirect target is the request
path minus its first character; doubled separators elsewhere in the path
are preserved, and paths with only interior doubled separators are not
matched by this route. -/
theorem double_slash_redirect
    (req captured : List Char)
    (hmatch : doubleSlashRouteMatch req = some captured) :
    req = '/' :: '/' :: captured ∧
    api_double_slash captured = (req.tail, 301) := by
  cases req with
  | nil => exact Option.noConfusion hmatch
  | cons a rest₁ =>
      cases rest₁ with
      | nil => exact Option.noConfusion hmatch
      | cons b rest =>
          rw [show doubleSlashRouteMatch (a :: b :: rest) =
            if a = '/' ∧ b = '/' then some rest else none from rfl] at hmatch
          by_cases h : a = '/' ∧ b = '/'
          · rw [if_pos h] at hmatch
            obtain ⟨ha, hb⟩ := h
            obtain rfl : rest = captured := Option.some.injEq _ _ ▸ hmatch
            subst ha
            subst hb
            exact ⟨rfl, rfl⟩
          · rw [if_neg h] at hmatch
            exact Option.noConfusion hmatch

/-- Witness for the amended C8: `//a//b` redirects to `/a//b`. -/
theorem double_slash_redirect_witness :
    "//a//b".toList = '/' :: '/' :: "a//b".toList ∧
    api_double_slash "a//b".toList = ("//a//b".toList.tail, 301) :=
  double_slash_redirect "//a//b".toList "a//b".toList (by decide)
